import Mathlib

/-!
# HardClaw (molt) — shallow embedding and verification of spec claims

This file embeds, in Lean 4, the parts of the HardClaw Rust code base that the
frozen claims C1–C10 speak about, and settles each claim against the embedding.

Modelling conventions:
* A Rust `[u8; 32]` hash digest is a `Nat`; its byte array is the little-endian
  byte expansion `leBytes 32 n` (a fixed bijection with `Nat < 2^256`).
  `Vec<u8>` is `List Nat` with entries `< 256`.
* BLAKE3 (`hash_data`) and Ed25519 signing/verification are abstracted as
  function parameters: the claims that mention them are parametric in the hash
  function, so nothing is lost.  SHA3-256, whose concrete output decides
  claim C4, is implemented in full (Keccak-f[1600]).
* `u128` amounts are `Nat` with the source's saturating/wrapping behaviour made
  explicit (`% 2^128`, `min` with `u128::MAX` and `MAX_SUPPLY`).
* `f64` appears in the source in exactly two consensus-relevant places:
  the attestation threshold `(n as f64 * 0.66).ceil()` and the average quality
  score.  Both are embedded exactly over `ℚ`:
  - `(n as f64 * 0.66_f64).ceil() = ⌈66*n/100⌉` for every `n < 2^49`, because
    `0.66_f64 = 33/50 + δ` with `δ ≈ 3.11e-17`, so the accumulated error
    `n*δ + ulp` stays below the distance `1/50` from the nearest integer
    (and below a half-ulp when `50 ∣ n`, where the exact value is an integer);
  - `quality_sum as f64 / quality_count as f64 >= threshold as f64` agrees with
    the rational comparison whenever `quality_count < 2^45`, since
    `|sum/count − t| ≥ 1/count` for integer `t` unless they are exactly equal.
* Wall-clock time (`now_millis`, elapsed times) and randomness (`rand`)
  are passed as explicit parameters.
-/

namespace HardClaw

/-! ## Bytes -/

/-- Little-endian byte expansion of `n` on `k` bytes (Rust `to_le_bytes` /
the byte array underlying a `Hash`). -/
def leBytes : Nat → Nat → List Nat
  | 0, _ => []
  | k + 1, n => (n % 256) :: leBytes k (n / 256)

/-- `i64::to_le_bytes`, via the two's-complement residue. -/
def i64leBytes (t : Int) : List Nat :=
  leBytes 8 (t % (2 ^ 64 : Int)).toNat

/-- Interpret a little-endian byte list as a `Nat`. -/
def fromLEBytes (bs : List Nat) : Nat :=
  bs.foldr (fun b acc => b + 256 * acc) 0

/-- One hex digit (lowercase, as `hex::encode`). -/
def hexDigit (n : Nat) : Char :=
  if n < 10 then Char.ofNat (48 + n) else Char.ofNat (87 + n)

/-- Lowercase hex of one byte, high nibble first (as `hex::encode`). -/
def byteHex (b : Nat) : List Char :=
  [hexDigit (b / 16), hexDigit (b % 16)]

/-- `Hash::to_hex`: `hex::encode` of the 32 bytes of the digest. -/
def hexChars (h : Nat) : List Char :=
  (leBytes 32 h).foldr (fun b acc => byteHex b ++ acc) []

/-! ## SHA3-256 (Keccak-f[1600])

The `sha3` crate's `Sha3_256` (FIPS 202): rate 136 bytes, padding byte `0x06`,
final bit `0x80`.  The 25 lanes are listed row-major (`index = x + 5*y`),
each lane a `Nat < 2^64`. -/

def U64MOD : Nat := 2 ^ 64

/-- 64-bit left rotation. -/
def rotl64 (v r : Nat) : Nat :=
  ((v <<< r) ||| (v >>> (64 - r))) % U64MOD

/-- Lane lookup with the toroidal x/y indexing of the Keccak state. -/
def lane (s : List Nat) (x y : Nat) : Nat :=
  s.getD (x % 5 + 5 * (y % 5)) 0

/-- θ step. -/
def theta (s : List Nat) : List Nat :=
  let c := fun x => lane s x 0 ^^^ lane s x 1 ^^^ lane s x 2 ^^^ lane s x 3 ^^^ lane s x 4
  let d := fun x => c (x + 4) ^^^ rotl64 (c (x + 1)) 1
  (List.range 25).map fun i => s.getD i 0 ^^^ d (i % 5)

/-- Rotation offsets for ρ, indexed by `x + 5*y`, generated as in FIPS 202:
starting from `(x, y) = (1, 0)`, the offset at `(x, y)` is the triangular
number `(t+1)(t+2)/2 mod 64` and `(x, y)` steps to `(y, (2x+3y) mod 5)`;
position `(0, 0)` keeps offset 0. -/
def rhoOffsets : List Nat :=
  (((List.range 24).foldl
    (fun (acc : List Nat × Nat × Nat) (t : Nat) =>
      let arr := acc.1
      let x := acc.2.1
      let y := acc.2.2
      (arr.set (x + 5 * y) ((t + 1) * (t + 2) / 2 % 64), y, (2 * x + 3 * y) % 5))
    (List.replicate 25 0, 1, 0))).1

/-- Combined ρ and π steps: `B[y, 2x+3y] = rotl(A[x, y], r[x, y])`, i.e. the
lane at position `(x, y)` of the output comes from `(x + 3y, x)` of the input. -/
def rhoPi (s : List Nat) : List Nat :=
  (List.range 25).map fun i =>
    let x := i % 5
    let y := i / 5
    let sx := (x + 3 * y) % 5
    let sy := x
    rotl64 (lane s sx sy) (rhoOffsets.getD (sx + 5 * sy) 0)

/-- χ step. -/
def chi (s : List Nat) : List Nat :=
  (List.range 25).map fun i =>
    let x := i % 5
    let y := i / 5
    s.getD i 0 ^^^ ((lane s (x + 1) y ^^^ (U64MOD - 1)) &&& lane s (x + 2) y)

/-- The bit generator `rc(t)` of FIPS 202: an LFSR over
`x^8 + x^6 + x^5 + x^4 + 1` (feedback mask `0x71` on overflow), bit 0 taken. -/
def keccakLfsr : Nat → Nat
  | 0 => 1
  | t + 1 =>
    let r := 2 * keccakLfsr t
    if 256 ≤ r then (r ^^^ 0x71) % 256 else r

/-- Round constants for ι, generated as in FIPS 202:
`RC[i] = Σ_{j=0}^{6} rc(j + 7i) · 2^(2^j - 1)`. -/
def keccakRC : List Nat :=
  (List.range 24).map fun i =>
    (List.range 7).foldl (fun acc j => acc + keccakLfsr (j + 7 * i) % 2 * 2 ^ (2 ^ j - 1)) 0

/-- One Keccak round. -/
def keccakRound (s : List Nat) (rc : Nat) : List Nat :=
  let s := chi (rhoPi (theta s))
  match s with
  | a0 :: rest => (a0 ^^^ rc) :: rest
  | [] => []

/-- Keccak-f[1600]: 24 rounds. -/
def keccakF (s : List Nat) : List Nat :=
  keccakRC.foldl keccakRound s

/-- XOR a (≤ 136-byte, zero-padded) rate block into the state. -/
def absorbBlock (s block : List Nat) : List Nat :=
  (List.range 25).map fun i =>
    if i < 17 then s.getD i 0 ^^^ fromLEBytes ((block.drop (8 * i)).take 8)
    else s.getD i 0

/-- SHA3-256 of a byte list, digest returned as the `Nat` whose little-endian
bytes are the 32 digest bytes. -/
def sha3_256 (m : List Nat) : Nat :=
  let q := 136 - m.length % 136
  let padded := if q = 1 then m ++ [0x86]
    else m ++ 0x06 :: List.replicate (q - 2) 0 ++ [0x80]
  let s0 : List Nat := List.replicate 25 0
  let s := (List.range (padded.length / 136)).foldl
    (fun st i => keccakF (absorbBlock st ((padded.drop (136 * i)).take 136))) s0
  s.getD 0 0 + 2 ^ 64 * s.getD 1 0 + 2 ^ 128 * s.getD 2 0 + 2 ^ 192 * s.getD 3 0

/-! ## Commitments and votes (`crypto/commitment.rs`, `types/verification.rs`) -/

/-- `Commitment::create`: SHA3-256 of `value || nonce` (`nonce` is 32 bytes). -/
def Commitment.create (value nonce : List Nat) : Nat :=
  sha3_256 (value ++ nonce)

/-- `Commitment::verify`: recompute and compare. -/
def Commitment.check (c : Nat) (value nonce : List Nat) : Bool :=
  Commitment.create value nonce == c

/-- `VoteResult` (`types/verification.rs`). -/
inductive VoteResult
  | Accept
  | Reject
  | Abstain
deriving DecidableEq, Repr

/-- `VoteResult::as_byte`. -/
def VoteResult.asByte : VoteResult → Nat
  | .Accept => 1
  | .Reject => 2
  | .Abstain => 0

/-- `VerificationVote` (`types/verification.rs`).  The `Commitment` field is the
underlying SHA3 digest. -/
structure VerificationVote where
  solutionId : Nat
  voter : Nat
  commitment : Nat
  vote : Option VoteResult
  nonce : Option (List Nat)
  qualityScore : Option Nat
  committedAt : Int
  revealedAt : Option Int
  signature : Nat
deriving DecidableEq, Repr

/-- `VerificationVote::commit`.  The source draws `nonce : [u8; 32]` from
`rand::random()` and reads the clock; both are parameters here.  It builds
`vote_data = vote_byte :: quality_score :: nonce` and calls
`Commitment::create(vote_data, nonce)`. -/
def VerificationVote.commit (solutionId voter : Nat) (vote : VoteResult)
    (qualityScore : Nat) (nonce : List Nat) (now : Int) : VerificationVote :=
  let voteData := vote.asByte :: qualityScore :: nonce
  { solutionId := solutionId
    voter := voter
    commitment := Commitment.create voteData nonce
    vote := some vote
    nonce := some nonce
    qualityScore := some qualityScore
    committedAt := now
    revealedAt := none
    signature := 0 }

/-- `VerificationVote::public_commitment`. -/
def VerificationVote.publicCommitment (v : VerificationVote) : VerificationVote :=
  { v with vote := none, nonce := none, qualityScore := none, revealedAt := none }

/-- `VerificationVote::is_revealed`. -/
def VerificationVote.isRevealed (v : VerificationVote) : Bool :=
  v.vote.isSome

/-- Modelled from the spec: the commitment the spec describes, namely
"SHA3-256(vote_byte ‖ quality_score ‖ nonce)" with a 32-byte nonce.  This is the
spec-side definition used to compare against `VerificationVote.commit`. -/
def specVoteCommitment (vote : VoteResult) (qualityScore : Nat) (nonce : List Nat) : Nat :=
  sha3_256 (vote.asByte :: qualityScore :: nonce)

/-! ## Vote tallying (`VotingResults::from_votes`)

`avg_quality_score` is `f64` in the source; it is embedded as the exact
rational, which agrees with the `f64` computation for any realizable number of
voters (see the header comment). -/

/-- `VotingResults`. -/
structure VotingResults where
  totalVotes : Nat
  acceptVotes : Nat
  rejectVotes : Nat
  abstainVotes : Nat
  avgQualityScore : ℚ
  majority : Option VoteResult
deriving DecidableEq, Repr

/-- Accumulator of the `for vote in votes` loop in `VotingResults::from_votes`. -/
structure TallyAcc where
  total : Nat
  accept : Nat
  reject : Nat
  abstain : Nat
  qSum : Nat
  qCnt : Nat
deriving DecidableEq, Repr

/-- One iteration of the tally loop. -/
def tallyStep (a : TallyAcc) (v : VerificationVote) : TallyAcc :=
  match v.vote with
  | none => a
  | some .Accept =>
    match v.qualityScore with
    | some q => { a with total := a.total + 1, accept := a.accept + 1,
                         qSum := a.qSum + q, qCnt := a.qCnt + 1 }
    | none => { a with total := a.total + 1, accept := a.accept + 1 }
  | some .Reject => { a with total := a.total + 1, reject := a.reject + 1 }
  | some .Abstain => { a with total := a.total + 1, abstain := a.abstain + 1 }

/-- `VotingResults::from_votes`. -/
def VotingResults.fromVotes (votes : List VerificationVote) : VotingResults :=
  let a := votes.foldl tallyStep ⟨0, 0, 0, 0, 0, 0⟩
  { totalVotes := a.total
    acceptVotes := a.accept
    rejectVotes := a.reject
    abstainVotes := a.abstain
    avgQualityScore := if 0 < a.qCnt then (a.qSum : ℚ) / (a.qCnt : ℚ) else 0
    majority :=
      if 0 < a.accept + a.reject then
        if a.reject < a.accept then some .Accept
        else if a.accept < a.reject then some .Reject
        else none
      else none }

/-! ## Voting rounds and the Schelling engine (`schelling/voting.rs`, `schelling/mod.rs`) -/

/-- `VotingPhase`. -/
inductive VotingPhase
  | Commit
  | Reveal
  | Complete
deriving DecidableEq, Repr

/-- Association-list lookup, modelling `HashMap::get`. -/
def lookup? {α : Type} (k : Nat) (l : List (Nat × α)) : Option α :=
  (l.find? (fun p => p.1 == k)).map Prod.snd

/-- Association-list removal, modelling `HashMap::remove`'s effect on the map. -/
def removeKey {α : Type} (k : Nat) (l : List (Nat × α)) : List (Nat × α) :=
  l.filter (fun p => p.1 != k)

/-- `VotingRound` (`schelling/voting.rs`).  The `votes` HashMap keyed by voter
public key is an association list (iteration order of the Rust map is
arbitrary; the claims only use it up to membership). -/
structure VotingRound where
  solutionId : Nat
  phase : VotingPhase
  commitStart : Int
  revealStart : Int
  endTime : Int
  votes : List (Nat × VerificationVote)
deriving DecidableEq, Repr

/-- `VotingRound::reveal_count`. -/
def VotingRound.revealCount (r : VotingRound) : Nat :=
  (r.votes.filter (fun p => p.2.isRevealed)).length

/-- `VotingRound::has_quorum`. -/
def VotingRound.hasQuorum (r : VotingRound) (minVoters : Nat) : Bool :=
  minVoters ≤ r.revealCount

/-- `VotingRound::tally_votes`: tally over the revealed votes. -/
def VotingRound.tallyVotes (r : VotingRound) : VotingResults :=
  VotingResults.fromVotes ((r.votes.filter (fun p => p.2.isRevealed)).map Prod.snd)

/-- `SchellingConfig`. -/
structure SchellingConfig where
  solverRedundancy : Nat
  minVoters : Nat
  commitPhaseMs : Int
  revealPhaseMs : Int
  qualityThreshold : Nat
  deviantSlashPercent : Nat
deriving DecidableEq, Repr

/-- `SchellingConfig::default`. -/
def SchellingConfig.default : SchellingConfig :=
  { solverRedundancy := 5
    minVoters := 3
    commitPhaseMs := 30000
    revealPhaseMs := 30000
    qualityThreshold := 70
    deviantSlashPercent := 5 }

/-- `RoundOutcome`. -/
structure RoundOutcome where
  solutionId : Nat
  accepted : Bool
  results : VotingResults
  deviants : List Nat
  finalizedAt : Int
deriving DecidableEq, Repr

/-- `CompletedRound`. -/
structure CompletedRound where
  round : VotingRound
  outcome : RoundOutcome
deriving DecidableEq, Repr

/-- `SchellingError`. -/
inductive SchellingError
  | roundAlreadyExists
  | roundNotFound
  | wrongPhase (expected actual : VotingPhase)
  | roundNotComplete
  | voterNotFound
  | commitmentMismatch
  | duplicateVote
deriving DecidableEq, Repr

/-- `SchellingConsensus`. -/
structure SchellingConsensus where
  config : SchellingConfig
  activeRounds : List (Nat × VotingRound)
  completedRounds : List (Nat × CompletedRound)
deriving DecidableEq, Repr

/-- The deviant filter of `SchellingConsensus::finalize_round`: a voter is a
deviant when their revealed vote differs from the majority and is not Abstain. -/
def deviantVote (majority : Option VoteResult) (v : VerificationVote) : Bool :=
  match v.vote with
  | some w =>
    match majority with
    | some m => w != m && w != VoteResult.Abstain
    | none => false
  | none => false

/-- `SchellingConsensus::finalize_round`.  `now` stands for `now_millis()`.
The source removes the round from `active_rounds` before the phase check and
keeps that mutation even on the error path; the error value here carries no
state, and no claim inspects the state after a failed finalize. -/
def SchellingConsensus.finalizeRound (c : SchellingConsensus) (sid : Nat) (now : Int) :
    Except SchellingError (RoundOutcome × SchellingConsensus) :=
  match lookup? sid c.activeRounds with
  | none => .error .roundNotFound
  | some round =>
    let c' := { c with activeRounds := removeKey sid c.activeRounds }
    if round.phase ≠ VotingPhase.Complete then .error .roundNotComplete
    else
      let results := round.tallyVotes
      let accepted := results.majority == some VoteResult.Accept
        && decide ((c.config.qualityThreshold : ℚ) ≤ results.avgQualityScore)
      let deviants := (round.votes.filter (fun p => deviantVote results.majority p.2)).map Prod.fst
      let outcome : RoundOutcome :=
        { solutionId := sid, accepted := accepted, results := results,
          deviants := deviants, finalizedAt := now }
      .ok (outcome,
        { c' with completedRounds := (sid, ⟨round, outcome⟩) :: c'.completedRounds })

/-! ## Token amounts (`types/amount.rs`)

`HclawAmount` wraps a `u128`; here it is a `Nat` (always `< 2^128` for values
built by the source's constructors), with the saturating/wrapping behaviour of
the source spelled out. -/

def U128MOD : Nat := 2 ^ 128

/-- `ONE_HCLAW = 10^18`. -/
def ONE_HCLAW : Nat := 10 ^ 18

/-- `MAX_SUPPLY = 10^9 HCLAW`. -/
def MAX_SUPPLY : Nat := 1000000000 * ONE_HCLAW

namespace HclawAmount

/-- `HclawAmount::percentage`: `self.0 * percent / 100`.  The `u128`
multiplication is unchecked in the source, hence the `% 2^128`. -/
def percentage (a p : Nat) : Nat :=
  a * p % U128MOD / 100

/-- `HclawAmount::saturating_add`: `u128::saturating_add` then `.min(MAX_SUPPLY)`. -/
def saturatingAdd (a b : Nat) : Nat :=
  min (min (a + b) (U128MOD - 1)) MAX_SUPPLY

/-- `HclawAmount::saturating_sub` (floors at 0, which is `Nat` subtraction). -/
def saturatingSub (a b : Nat) : Nat :=
  a - b

end HclawAmount

/-! ## Fee distribution (`tokenomics/mod.rs`, `tokenomics/distribution.rs`)

`tokenomics/mod.rs` declares `mod distribution` and
`TokenEconomics::process_job_completion` calls
`self.fee_distributor.distribute(bounty, solver, verifier)`, but
`distribution.rs` itself is not in the source tree; `FeeDistributor::distribute`
is modelled from the spec below. -/

/-- `TokenEconomicsConfig` (the share fields the claims use). -/
structure TokenEconomicsConfig where
  solverShare : Nat
  verifierShare : Nat
  burnShare : Nat
deriving DecidableEq, Repr

/-- The default config: 95 / 4 / 1. -/
def TokenEconomicsConfig.default : TokenEconomicsConfig :=
  { solverShare := 95, verifierShare := 4, burnShare := 1 }

/-- `FeeDistribution` amounts (addresses omitted: the claims only constrain the
three amounts). -/
structure FeeDistribution where
  solverAmount : Nat
  verifierAmount : Nat
  burnAmount : Nat
deriving DecidableEq, Repr

/-- Modelled from the spec: `FeeDistributor::distribute` (the file
`tokenomics/distribution.rs` is missing from the sources; only its caller
`TokenEconomics::process_job_completion` and the share configuration are
present).  Per the spec: "On job completion with bounty B ... distribute
`solver = B · 95/100`, `verifier = B · 4/100`, `burn = B · 1/100`", computed
with `HclawAmount::percentage` (the percentage primitive the source provides
and its tests exercise with exactly these shares). -/
def FeeDistributor.distribute (cfg : TokenEconomicsConfig) (bounty : Nat) : FeeDistribution :=
  { solverAmount := HclawAmount.percentage bounty cfg.solverShare
    verifierAmount := HclawAmount.percentage bounty cfg.verifierShare
    burnAmount := HclawAmount.percentage bounty cfg.burnShare }

/-- `TokenEconomics::process_job_completion`: distributes the bounty and records
the burn; the returned value is the distribution. -/
def processJobCompletion (cfg : TokenEconomicsConfig) (bounty : Nat) : FeeDistribution :=
  FeeDistributor.distribute cfg bounty

/-! ## Staking and slashing (`verifier/stake.rs`) -/

/-- `SlashingReason`. -/
inductive SlashingReason
  | honeyPotApproval (solutionId : Nat)
  | invalidVerification (details : List Char)
  | doubleSigning (blockHash1 blockHash2 : Nat)
  | downtime (offlineDurationSecs : Nat)
deriving DecidableEq, Repr

/-- `SlashingReason::slash_percentage`. -/
def SlashingReason.slashPercentage : SlashingReason → Nat
  | .honeyPotApproval _ => 100
  | .invalidVerification _ => 10
  | .doubleSigning _ _ => 100
  | .downtime _ => 1

/-- `SlashEvent`. -/
structure SlashEvent where
  reason : SlashingReason
  amount : Nat
  timestamp : Int
deriving DecidableEq, Repr

/-- `StakeInfo`. -/
structure StakeInfo where
  address : Nat
  amount : Nat
  stakedAt : Int
  withdrawableAt : Option Int
  isActive : Bool
  totalRewards : Nat
  totalSlashed : Nat
  slashHistory : List SlashEvent
deriving DecidableEq, Repr

/-- `StakeInfo::new`. -/
def StakeInfo.new (address amount : Nat) (now : Int) : StakeInfo :=
  { address := address
    amount := amount
    stakedAt := now
    withdrawableAt := none
    isActive := true
    totalRewards := 0
    totalSlashed := 0
    slashHistory := [] }

/-- `StakeInfo::effective_stake`: `amount.saturating_sub(total_slashed)`. -/
def StakeInfo.effectiveStake (s : StakeInfo) : Nat :=
  HclawAmount.saturatingSub s.amount s.totalSlashed

/-- `StakeInfo::can_verify`. -/
def StakeInfo.canVerify (s : StakeInfo) (minStake : Nat) : Bool :=
  s.isActive && minStake ≤ s.effectiveStake

/-- `StakeInfo::apply_slash`: returns the updated stake and the slashed amount. -/
def StakeInfo.applySlash (s : StakeInfo) (reason : SlashingReason) (timestamp : Int) :
    StakeInfo × Nat :=
  let slashPercent := reason.slashPercentage
  let slashAmount := HclawAmount.percentage s.amount slashPercent
  let s' := { s with
    totalSlashed := HclawAmount.saturatingAdd s.totalSlashed slashAmount
    slashHistory := s.slashHistory ++ [⟨reason, slashAmount, timestamp⟩]
    isActive := if slashPercent = 100 then false else s.isActive }
  (s', slashAmount)

/-- A sequence of slashes applied in order (each entry is a reason with the
`now_millis()` observed at that call). -/
def StakeInfo.applySlashes (s : StakeInfo) (rs : List (SlashingReason × Int)) : StakeInfo :=
  rs.foldl (fun st p => (st.applySlash p.1 p.2).1) s

/-! ## Honey-pot detector (`verifier/honey_pot.rs`)

`HoneyPotDetector` holds two sets (`HashSet<Hash>`, `HashSet<PublicKey>`);
they are modelled as duplicate-free lists with set semantics. -/

/-- The detector's state. -/
structure DetectorState where
  knownHoneyPots : List Nat
  offenders : List Nat
deriving DecidableEq, Repr

/-- `HoneyPotDetector::new`. -/
def DetectorState.new : DetectorState :=
  { knownHoneyPots := [], offenders := [] }

/-- `HashSet::insert` on a duplicate-free list. -/
def setInsert (x : Nat) (l : List Nat) : List Nat :=
  if x ∈ l then l else x :: l

/-- The detector's public mutating calls. -/
inductive HPEvent
  | register (solutionId : Nat)
  | recordOffender (miner solutionId : Nat)
  | clearOffender (miner : Nat)
deriving DecidableEq, Repr

/-- `HoneyPotDetector::is_honey_pot`. -/
def DetectorState.isHoneyPot (s : DetectorState) (solutionId : Nat) : Bool :=
  s.knownHoneyPots.contains solutionId

/-- `HoneyPotDetector::is_offender`. -/
def DetectorState.isOffender (s : DetectorState) (miner : Nat) : Bool :=
  s.offenders.contains miner

/-- One mutating call: `register` inserts into the known set;
`record_offender` inserts the miner into the offender set only when the
solution id is a known honey pot; `clear_offender` removes the miner. -/
def DetectorState.step (s : DetectorState) : HPEvent → DetectorState
  | .register id => { s with knownHoneyPots := setInsert id s.knownHoneyPots }
  | .recordOffender miner id =>
    if s.isHoneyPot id then { s with offenders := setInsert miner s.offenders }
    else s
  | .clearOffender miner => { s with offenders := s.offenders.filter (fun m => m != miner) }

/-- Run a sequence of calls from a fresh detector. -/
def DetectorState.run (evts : List HPEvent) : DetectorState :=
  evts.foldl DetectorState.step DetectorState.new

/-! ## Verification results, attestations and blocks (`types/verification.rs`,
`types/block.rs`)

The BLAKE3 `hash_data` and the Ed25519 signature check are abstracted as
parameters `H : List Nat → Nat` and `S : SigVerify`: every claim about them is
parametric in the hash/signature scheme. -/

/-- Abstract signature verification: `verify(public_key, message, signature)`. -/
def SigVerify : Type := Nat → List Nat → Nat → Bool

/-- `VerificationResult`. -/
structure VerificationResult where
  solutionId : Nat
  jobId : Nat
  verifier : Nat
  passed : Bool
  error : Option (List Char)
  verificationTimeMs : Nat
  verifiedAt : Int
  signature : Nat
deriving DecidableEq, Repr

/-- `VerificationResult::new` (`verified_at = now_millis()` is the `now`
parameter; the signature starts zeroed). -/
def VerificationResult.new (solutionId jobId verifier : Nat) (passed : Bool)
    (error : Option (List Char)) (verificationTimeMs : Nat) (now : Int) : VerificationResult :=
  { solutionId := solutionId
    jobId := jobId
    verifier := verifier
    passed := passed
    error := error
    verificationTimeMs := verificationTimeMs
    verifiedAt := now
    signature := 0 }

/-- `VerificationResult::signing_bytes`. -/
def VerificationResult.signingBytes (r : VerificationResult) : List Nat :=
  leBytes 32 r.solutionId ++ leBytes 32 r.jobId ++ leBytes 32 r.verifier ++
    [if r.passed then 1 else 0] ++ i64leBytes r.verifiedAt

/-- `VerifierAttestation`. -/
structure VerifierAttestation where
  verifier : Nat
  blockHash : Nat
  verifiedSolutions : List Nat
  signature : Nat
deriving DecidableEq, Repr

/-- `VerifierAttestation::signing_bytes`. -/
def VerifierAttestation.signingBytes (a : VerifierAttestation) : List Nat :=
  leBytes 32 a.verifier ++ leBytes 32 a.blockHash ++
    (a.verifiedSolutions.map (leBytes 32)).flatten

/-- `VerifierAttestation::verify_signature`, relative to the signature scheme. -/
def VerifierAttestation.sigOk (S : SigVerify) (a : VerifierAttestation) : Bool :=
  S a.verifier a.signingBytes a.signature

/-- One level of the Merkle tree (`crypto/hash.rs::merkle_root` inner loop):
consecutive pairs are concatenated and hashed; an odd trailing digest is
hashed with itself. -/
def merkleLevel (H : List Nat → Nat) : List Nat → List Nat
  | [] => []
  | [a] => [H (leBytes 32 a ++ leBytes 32 a)]
  | a :: b :: rest => H (leBytes 32 a ++ leBytes 32 b) :: merkleLevel H rest

theorem length_merkleLevel (H : List Nat → Nat) :
    ∀ l : List Nat, (merkleLevel H l).length = (l.length + 1) / 2
  | [] => rfl
  | [_] => by simp [merkleLevel]
  | _ :: _ :: rest => by
    simp only [merkleLevel, List.length_cons, length_merkleLevel H rest]
    omega

/-- The `while current_level.len() > 1` loop of `merkle_root`. -/
def merkleLoop (H : List Nat → Nat) (l : List Nat) : Nat :=
  if _h : l.length ≤ 1 then l.headD 0
  else merkleLoop H (merkleLevel H l)
termination_by l.length
decreasing_by
  simp only [length_merkleLevel]
  omega

/-- `merkle_root`: empty list is the zero hash; singleton is that digest. -/
def merkleRoot (H : List Nat → Nat) (hashes : List Nat) : Nat :=
  if hashes.isEmpty then 0
  else if hashes.length = 1 then hashes.headD 0
  else merkleLoop H hashes

/-- `BlockHeader`. -/
structure BlockHeader where
  height : Nat
  parentHash : Nat
  solutionsRoot : Nat
  stateRoot : Nat
  timestamp : Int
  proposer : Nat
  verificationCount : Nat
  version : Nat
deriving DecidableEq, Repr

/-- `BlockHeader::compute_hash`: BLAKE3 of the little-endian serialization of
the fields, in source order. -/
def BlockHeader.computeHash (H : List Nat → Nat) (h : BlockHeader) : Nat :=
  H (leBytes 8 h.height ++ leBytes 32 h.parentHash ++ leBytes 32 h.solutionsRoot ++
     leBytes 32 h.stateRoot ++ i64leBytes h.timestamp ++ leBytes 32 h.proposer ++
     leBytes 4 h.verificationCount ++ leBytes 4 h.version)

/-- `Block`. -/
structure Block where
  header : BlockHeader
  hash : Nat
  verifications : List VerificationResult
  attestations : List VerifierAttestation
  proposerSignature : Nat
deriving DecidableEq, Repr

/-- `Block::compute_solutions_root`. -/
def computeSolutionsRoot (H : List Nat → Nat) (verifications : List VerificationResult) : Nat :=
  merkleRoot H (verifications.map (·.solutionId))

/-- The attestation count needed for consensus:
`(total_verifiers as f64 * CONSENSUS_THRESHOLD).ceil() as usize` with
`CONSENSUS_THRESHOLD = 0.66`.  Embedded exactly as `⌈66·n/100⌉` over the
integers; the f64 computation agrees for every `n < 2^49` (header comment). -/
def consensusThreshold (n : Nat) : Nat :=
  (66 * n + 99) / 100

/-- `Block::has_consensus`. -/
def Block.hasConsensus (b : Block) (totalVerifiers : Nat) : Bool :=
  if totalVerifiers = 0 then false
  else consensusThreshold totalVerifiers ≤ b.attestations.length

/-- `Block::consensus_percentage` (an `f64` ratio in the source, exact here). -/
def Block.consensusPercentage (b : Block) (totalVerifiers : Nat) : ℚ :=
  if totalVerifiers = 0 then 0
  else (b.attestations.length : ℚ) / (totalVerifiers : ℚ)

/-- `BlockError`. -/
inductive BlockError
  | hashMismatch
  | solutionsRootMismatch
  | invalidParent
  | invalidHeight (expected got : Nat)
  | insufficientConsensus (percentage : ℚ)
  | invalidAttestation
  | futureTimestamp
deriving DecidableEq, Repr

/-- The thiserror `Display` strings of `BlockError`.  Only the three
payload-free variants produced by `verify_integrity` are ever rendered by
`validate_block`; the interpolated variants use Lean's `toString` rendering of
the payloads and are unreachable from it. -/
def blockErrorMessage : BlockError → List Char
  | .hashMismatch => "block hash mismatch".data
  | .solutionsRootMismatch => "solutions root mismatch".data
  | .invalidParent => "invalid parent hash".data
  | .invalidHeight e g =>
    ("invalid block height: expected " ++ toString e ++ ", got " ++ toString g).data
  | .insufficientConsensus p =>
    ("insufficient consensus: " ++ toString p ++ "% < 66%").data
  | .invalidAttestation => "invalid attestation signature".data
  | .futureTimestamp => "block timestamp in future".data

/-- The attestation-signature loop shared by `verify_integrity` and
`validate_block`: all signatures must verify. -/
def attestationsVerify (S : SigVerify) : List VerifierAttestation → Bool
  | [] => true
  | a :: rest => a.sigOk S && attestationsVerify S rest

/-- `Block::verify_integrity`. -/
def Block.verifyIntegrity (H : List Nat → Nat) (S : SigVerify) (b : Block) :
    Except BlockError Unit :=
  if b.header.computeHash H ≠ b.hash then .error .hashMismatch
  else if computeSolutionsRoot H b.verifications ≠ b.header.solutionsRoot then
    .error .solutionsRootMismatch
  else if attestationsVerify S b.attestations = false then .error .invalidAttestation
  else .ok ()

/-- `ConsensusError` (`consensus/mod.rs`). -/
inductive ConsensusError
  | insufficientConsensus (percentage : ℚ)
  | invalidParent
  | heightMismatch (expected got : Nat)
  | verificationFailed (reason : List Char)
  | blockExists (height : Nat)
  | jobNotFound (jobId : List Char)
  | solutionMismatch
deriving DecidableEq, Repr

/-- The parent-reference checks at the top of
`ProofOfVerification::validate_block`. -/
def parentCheckE (b : Block) (parent : Option Block) : Except ConsensusError Unit :=
  match parent with
  | some p =>
    if b.header.parentHash ≠ p.hash then .error .invalidParent
    else if b.header.height ≠ p.header.height + 1 then
      .error (.heightMismatch (p.header.height + 1) b.header.height)
    else .ok ()
  | none =>
    if b.header.height ≠ 0 then .error .invalidParent
    else .ok ()

/-- `ProofOfVerification::validate_block`. -/
def validateBlock (H : List Nat → Nat) (S : SigVerify) (b : Block)
    (parent : Option Block) (activeVerifiers : Nat) : Except ConsensusError Unit :=
  match parentCheckE b parent with
  | .error e => .error e
  | .ok _ =>
    match b.verifyIntegrity H S with
    | .error e => .error (.verificationFailed (blockErrorMessage e))
    | .ok _ =>
      if b.hasConsensus activeVerifiers = false then
        .error (.insufficientConsensus (b.consensusPercentage activeVerifiers * 100))
      else if attestationsVerify S b.attestations = false then
        .error (.verificationFailed "Invalid attestation signature".data)
      else .ok ()

/-! ## Jobs, solutions and `verify_solution` (`types/job.rs`,
`types/solution.rs`, `consensus/pov.rs`) -/

/-- `JobType`. -/
inductive JobType
  | Deterministic
  | Subjective
deriving DecidableEq, Repr

/-- `JobStatus`. -/
inductive JobStatus
  | Pending
  | Claimed
  | Verifying
  | Completed
  | Expired
  | Disputed
deriving DecidableEq, Repr

/-- `VerificationSpec`.  Script code is carried as its byte list (the source
hashes `code.as_bytes()`). -/
inductive VerificationSpec
  | hashMatch (expectedHash : Nat)
  | wasmVerifier (moduleHash : Nat) (entryPoint : List Char)
  | pythonScript (codeHash : Nat) (code : List Nat)
  | javaScriptScript (codeHash : Nat) (code : List Nat)
  | schellingPoint (minVoters qualityThreshold : Nat)
deriving DecidableEq, Repr

/-- `JobPacket`. -/
structure JobPacket where
  id : Nat
  jobType : JobType
  status : JobStatus
  requester : Nat
  requesterAddress : Nat
  input : List Nat
  description : List Char
  bounty : Nat
  burnFee : Nat
  verification : VerificationSpec
  createdAt : Int
  expiresAt : Int
  signature : Nat
deriving DecidableEq, Repr

/-- `SolutionStatus`. -/
inductive SolutionStatus
  | Pending
  | Verifying
  | Verified
  | Rejected
  | HoneyPot
deriving DecidableEq, Repr

/-- `SolutionCandidate`. -/
structure SolutionCandidate where
  id : Nat
  jobId : Nat
  solver : Nat
  solverAddress : Nat
  output : List Nat
  outputHash : Nat
  submittedAt : Int
  signature : Nat
  status : SolutionStatus
  isHoneyPot : Bool
deriving DecidableEq, Repr

/-- The ambient facilities `ProofOfVerification::verify_solution` draws on:
the BLAKE3 `hash_data`, the verifier keypair (public key and signing), the
sandbox runtimes (`runtime.execute` results as functions of the inputs, the
Python availability probe), the clock, and the elapsed wall time of the
dispatch. -/
structure PovEnv where
  H : List Nat → Nat
  sign : List Nat → Nat
  verifierPk : Nat
  pyAvailable : Bool
  pyExec : List Nat → List Nat → List Nat → Except (List Char) Bool
  jsExec : List Nat → List Nat → List Nat → Except (List Char) Bool
  now : Int
  elapsedMs : Nat
  cacheTtlMs : Int

/-- `ProofOfVerification::verify_hash_match`. -/
def verifyHashMatch (H : List Nat → Nat) (output : List Nat) (expectedHash : Nat) :
    Bool × Option (List Char) :=
  let actualHash := H output
  if actualHash = expectedHash then (true, none)
  else (false, some ("Hash mismatch: expected ".data ++ hexChars expectedHash ++
    ", got ".data ++ hexChars actualHash))

/-- `ProofOfVerification::verify_wasm` (placeholder in the source: it only
checks the module hash is nonzero). -/
def verifyWasm (_input _output : List Nat) (moduleHash : Nat) (_entryPoint : List Char) :
    Bool × Option (List Char) :=
  if moduleHash = 0 then (false, some "Invalid WASM module hash".data)
  else (true, none)

/-- `ProofOfVerification::verify_python_script`. -/
def verifyPythonScript (env : PovEnv) (codeHash : Nat) (code input output : List Nat) :
    Bool × Option (List Char) :=
  if env.H code ≠ codeHash then
    (false, some "Python code hash mismatch - possible tampering".data)
  else if env.pyAvailable = false then
    (false, some "Python 3.8+ not available on this system".data)
  else
    match env.pyExec code input output with
    | .ok r => (r, none)
    | .error e => (false, some ("Python execution failed: ".data ++ e))

/-- `ProofOfVerification::verify_javascript_script`. -/
def verifyJavaScriptScript (env : PovEnv) (codeHash : Nat) (code input output : List Nat) :
    Bool × Option (List Char) :=
  if env.H code ≠ codeHash then
    (false, some "JavaScript code hash mismatch - possible tampering".data)
  else
    match env.jsExec code input output with
    | .ok r => (r, none)
    | .error e => (false, some ("JavaScript execution failed: ".data ++ e))

/-- `ProofOfVerification::get_cached_result`: a cached entry is returned only
while its age is below the TTL. -/
def getCachedResult (env : PovEnv) (cache : List (Nat × VerificationResult))
    (solutionId : Nat) : Option VerificationResult :=
  match lookup? solutionId cache with
  | some r => if env.now - r.verifiedAt < env.cacheTtlMs then some r else none
  | none => none

/-- `ProofOfVerification::verify_solution`.  Returns the result together with
the updated verification cache (the source mutates `self.verification_cache`). -/
def verifySolution (env : PovEnv) (cache : List (Nat × VerificationResult))
    (job : JobPacket) (sol : SolutionCandidate) :
    Except ConsensusError (VerificationResult × List (Nat × VerificationResult)) :=
  if sol.jobId ≠ job.id then .error .solutionMismatch
  else
    match getCachedResult env cache sol.id with
    | some cached => .ok (cached, cache)
    | none =>
      match (match job.verification with
        | .hashMatch e => some (verifyHashMatch env.H sol.output e)
        | .wasmVerifier mh ep => some (verifyWasm job.input sol.output mh ep)
        | .pythonScript ch code => some (verifyPythonScript env ch code job.input sol.output)
        | .javaScriptScript ch code =>
          some (verifyJavaScriptScript env ch code job.input sol.output)
        | .schellingPoint _ _ => none) with
      | none => .error (.verificationFailed "Subjective tasks require Schelling consensus".data)
      | some (passed, err) =>
        let result0 := VerificationResult.new sol.id job.id env.verifierPk passed err
          env.elapsedMs env.now
        let result := { result0 with signature := env.sign result0.signingBytes }
        .ok (result, (sol.id, result) :: cache)

/-! ## Chain state (`state/mod.rs`) -/

/-- `AccountState`. -/
structure AccountState where
  balance : Nat
  nonce : Nat
  staked : Nat
  totalRewards : Nat
  totalSpent : Nat
  totalEarned : Nat
deriving DecidableEq, Repr

/-- `ChainState`. -/
structure ChainState where
  accounts : List (Nat × AccountState)
  blocks : List (Nat × Block)
  heightIndex : List (Nat × Nat)
  tip : Option Nat
  height : Nat
  jobs : List (Nat × JobPacket)
  solutions : List (Nat × SolutionCandidate)
deriving DecidableEq, Repr

/-- `ChainState::new`. -/
def ChainState.new : ChainState :=
  { accounts := [], blocks := [], heightIndex := [], tip := none, height := 0,
    jobs := [], solutions := [] }

/-- `StateError` (payload names follow the source's `have`/`need`). -/
inductive StateError
  | insufficientBalance (got needed : Nat)
  | invalidParent
  | invalidHeight (expected got : Nat)
  | blockNotFound
  | accountNotFound
deriving DecidableEq, Repr

/-- The storage tail of `apply_block`: store the block, index
`self.height + 1`, move the tip, bump the height. -/
def ChainState.store (st : ChainState) (b : Block) : ChainState :=
  { st with
    blocks := (b.hash, b) :: st.blocks
    heightIndex := (st.height + 1, b.hash) :: st.heightIndex
    tip := some b.hash
    height := st.height + 1 }

/-- `ChainState::apply_block`. -/
def ChainState.applyBlock (st : ChainState) (b : Block) : Except StateError ChainState :=
  match st.tip with
  | some t =>
    if b.header.parentHash ≠ t then .error .invalidParent
    else if b.header.height ≠ st.height + 1 then
      .error (.invalidHeight (st.height + 1) b.header.height)
    else .ok (st.store b)
  | none =>
    if b.header.height ≠ 0 then .error (.invalidHeight 0 b.header.height)
    else .ok (st.store b)

/-- The acceptance condition `apply_block` actually enforces: with a tip, the
parent hash must equal the tip hash and the header height must equal the
internal height counter plus one (`self.height + 1` — not the tip header's
height plus one); with no tip, the header height must be 0. -/
def applyAccepts (st : ChainState) (b : Block) : Prop :=
  match st.tip with
  | some t => b.header.parentHash = t ∧ b.header.height = st.height + 1
  | none => b.header.height = 0

/-! # Claims

Every claim of `CLAIMS.json` is settled below against the embedding above. -/

section Claims

set_option maxRecDepth 1000000

/-! ## C9 — zero active verifiers reject every block -/

/-- Claim C9 (confirmed): for every block `b` and every optional parent,
`validate_block(b, parent, 0)` never succeeds: with zero active verifiers
`has_consensus` returns `false` regardless of the attestation count, so even a
self-attested genesis block is rejected (with `InsufficientConsensus` once the
earlier checks pass). -/
theorem c9_zero_verifiers_reject (H : List Nat → Nat) (S : SigVerify) (b : Block)
    (parent : Option Block) :
    b.hasConsensus 0 = false ∧ (validateBlock H S b parent 0).isOk = false := by
  refine ⟨rfl, ?_⟩
  unfold validateBlock
  cases hp : parentCheckE b parent with
  | error e => rfl
  | ok u =>
    cases u
    cases hi : b.verifyIntegrity H S with
    | error e => rfl
    | ok u => cases u; rfl

/-! ## C3 — `apply_block` acceptance condition and the genesis off-by-one -/

/-- A genesis-shaped block (height 0, zero parent hash); `apply_block` never
recomputes hashes, so the `hash` field is arbitrary. -/
def g0 : Block :=
  { header := { height := 0, parentHash := 0, solutionsRoot := 0, stateRoot := 0,
                timestamp := 0, proposer := 0, verificationCount := 0, version := 1 },
    hash := 5, verifications := [], attestations := [], proposerSignature := 0 }

/-- A height-1 child of `g0` (its `parent_hash` is `g0.hash`). -/
def b1 : Block :=
  { header := { height := 1, parentHash := 5, solutionsRoot := 0, stateRoot := 0,
                timestamp := 0, proposer := 0, verificationCount := 0, version := 1 },
    hash := 6, verifications := [], attestations := [], proposerSignature := 0 }

/-- A height-2 child of `g0`. -/
def b2 : Block :=
  { header := { height := 2, parentHash := 5, solutionsRoot := 0, stateRoot := 0,
                timestamp := 0, proposer := 0, verificationCount := 0, version := 1 },
    hash := 7, verifications := [], attestations := [], proposerSignature := 0 }

/-- The state after applying `g0` to a fresh chain. -/
def stG : ChainState := ChainState.new.store g0

/-- Claim C3 counterexample: applying genesis succeeds, and the height-1 block
whose `parent_hash` is the genesis hash satisfies the claim's acceptance
condition (`parent_hash = tip hash`, `height = tip header height + 1`), yet
`apply_block` rejects it with `InvalidHeight { expected: 2, got: 1 }` — the
code compares against the internal counter (1 after genesis) plus one. -/
theorem c3_counterexample :
    ChainState.new.applyBlock g0 = .ok stG ∧
    stG.tip = some g0.hash ∧
    b1.header.parentHash = g0.hash ∧
    b1.header.height = g0.header.height + 1 ∧
    stG.applyBlock b1 = .error (.invalidHeight 2 1) := by
  refine ⟨rfl, rfl, rfl, rfl, rfl⟩

/-- Claim C3 (corrected): `apply_block` accepts exactly when the parent hash
equals the tip hash and the header height equals the internal height counter
plus 1 (with no tip: exactly height 0); the counter is 1 after genesis, so the
block following genesis must carry height 2 and a height-1 child of genesis is
rejected.  Each successful `apply_block` advances the counter by exactly 1 and
moves the tip to the new block. -/
theorem c3_apply_block (st : ChainState) (b : Block) :
    ((st.applyBlock b).isOk = true ↔ applyAccepts st b) ∧
    (∀ st', st.applyBlock b = .ok st' →
      st'.height = st.height + 1 ∧ st'.tip = some b.hash ∧
      st'.blocks = (b.hash, b) :: st.blocks) := by
  constructor
  · unfold ChainState.applyBlock applyAccepts
    cases st.tip with
    | some t =>
      by_cases h1 : b.header.parentHash = t
      · by_cases h2 : b.header.height = st.height + 1
        · simp [h1, h2, Except.isOk, Except.toBool]
        · simp [h1, h2, Except.isOk, Except.toBool]
      · simp [h1, Except.isOk, Except.toBool]
    | none =>
      by_cases h : b.header.height = 0 <;> simp [h, Except.isOk, Except.toBool]
  · intro st' h
    unfold ChainState.applyBlock at h
    split at h
    · split at h
      · exact absurd h (by simp)
      · split at h
        · exact absurd h (by simp)
        · injection h with h
          subst h
          exact ⟨rfl, rfl, rfl⟩
    · split at h
      · exact absurd h (by simp)
      · injection h with h
        subst h
        exact ⟨rfl, rfl, rfl⟩

/-- Witness for C3's amended theorem at concrete inputs: the genesis applies to
the fresh state, and the height-2 child of genesis (not the height-1 one)
applies to the resulting state, advancing the counter to 2. -/
theorem c3_apply_block_witness :
    (ChainState.new.applyBlock g0).isOk = true ∧
    (stG.applyBlock b2).isOk = true ∧
    (stG.store b2).height = stG.height + 1 :=
  ⟨(c3_apply_block ChainState.new g0).1.mpr rfl,
   (c3_apply_block stG b2).1.mpr ⟨rfl, rfl⟩,
   ((c3_apply_block stG b2).2 (stG.store b2) rfl).1⟩

/-! ## C1 — the 2/3 attestation threshold in `validate_block` -/

/-- Claim C1 (confirmed): for every block, optional parent and active verifier
count `n > 0` for which the parent/height checks and the integrity checks pass,
`validate_block` succeeds only if the block carries at least `⌈0.66·n⌉`
attestations, and with fewer attestations it fails with
`InsufficientConsensus`.  The first conjunct identifies the embedded threshold
with the ceiling of the rational `66·n/100`. -/
theorem c1_consensus_threshold (H : List Nat → Nat) (S : SigVerify) (b : Block)
    (parent : Option Block) (n : Nat)
    (hp : parentCheckE b parent = .ok ())
    (hi : b.verifyIntegrity H S = .ok ())
    (hn : 0 < n) :
    (∀ k : Nat, consensusThreshold n ≤ k ↔ ((66 * n : Nat) : ℚ) / 100 ≤ (k : ℚ)) ∧
    ((validateBlock H S b parent n).isOk = true →
      consensusThreshold n ≤ b.attestations.length) ∧
    (b.attestations.length < consensusThreshold n →
      validateBlock H S b parent n =
        .error (.insufficientConsensus (b.consensusPercentage n * 100))) := by
  have hval : validateBlock H S b parent n =
      (if b.hasConsensus n = false then
        .error (.insufficientConsensus (b.consensusPercentage n * 100))
      else if attestationsVerify S b.attestations = false then
        .error (.verificationFailed "Invalid attestation signature".data)
      else .ok ()) := by
    unfold validateBlock
    rw [hp, hi]
  refine ⟨?_, ?_, ?_⟩
  · intro k
    unfold consensusThreshold
    rw [div_le_iff₀ (by norm_num : (0 : ℚ) < 100)]
    constructor
    · intro hk
      exact_mod_cast (by omega : (66 * n : Nat) ≤ k * 100)
    · intro hk
      have h2 : (66 * n : Nat) ≤ k * 100 := by exact_mod_cast hk
      omega
  · intro hok
    rw [hval] at hok
    by_cases hc : b.hasConsensus n = false
    · rw [if_pos hc] at hok
      simp [Except.isOk, Except.toBool] at hok
    · have hc' : b.hasConsensus n = true := by
        cases hb : b.hasConsensus n
        · exact absurd hb hc
        · rfl
      unfold Block.hasConsensus at hc'
      rw [if_neg (by omega : ¬n = 0)] at hc'
      exact of_decide_eq_true hc'
  · intro hlt
    have hc : b.hasConsensus n = false := by
      unfold Block.hasConsensus
      rw [if_neg (by omega : ¬n = 0)]
      exact decide_eq_false (by omega)
    rw [hval, if_pos hc]

/-- The hash/signature environment of the C1 witness: the constant-zero hash
function and the always-accepting signature checker. -/
def wH : List Nat → Nat := fun _ => 0

/-- See `wH`. -/
def wS : SigVerify := fun _ _ _ => true

/-- A genesis-shaped block whose integrity holds under `wH` (its hash is the
constant 0, it has no verifications and no attestations). -/
def wBlock : Block :=
  { header := { height := 0, parentHash := 0, solutionsRoot := 0, stateRoot := 0,
                timestamp := 0, proposer := 0, verificationCount := 0, version := 1 },
    hash := 0, verifications := [], attestations := [], proposerSignature := 0 }

/-- Witness for C1 at `n = 1`: the parentless zero-attestation block passes the
parent and integrity checks but is rejected with `InsufficientConsensus`. -/
theorem c1_consensus_threshold_witness :
    parentCheckE wBlock none = .ok () ∧ wBlock.verifyIntegrity wH wS = .ok () ∧
    wBlock.attestations.length < consensusThreshold 1 ∧
    validateBlock wH wS wBlock none 1 =
      .error (.insufficientConsensus (wBlock.consensusPercentage 1 * 100)) :=
  ⟨rfl, rfl, by decide,
   (c1_consensus_threshold wH wS wBlock none 1 rfl rfl Nat.one_pos).2.2 (by decide)⟩

/-! ## C2 — hash-match verification -/

/-- Claim C2 (confirmed): for a job whose verification is
`HashMatch{expected_hash}`, a solution with the right `job_id` and no cached
result, `verify_solution` returns a result that passes iff the hash of the
output (BLAKE3 `hash_data`, the parameter `env.H`) equals `expected_hash`; on a
mismatch the error string is exactly the hex mismatch message, which contains
the expected and actual digests in hex. -/
theorem c2_hash_match (env : PovEnv) (cache : List (Nat × VerificationResult))
    (job : JobPacket) (sol : SolutionCandidate) (expected : Nat)
    (hspec : job.verification = .hashMatch expected)
    (hid : sol.jobId = job.id)
    (hcache : getCachedResult env cache sol.id = none) :
    ∃ res newCache, verifySolution env cache job sol = .ok (res, newCache) ∧
      (res.passed = true ↔ env.H sol.output = expected) ∧
      (env.H sol.output = expected → res.error = none) ∧
      (env.H sol.output ≠ expected →
        res.error = some ("Hash mismatch: expected ".data ++ hexChars expected ++
          ", got ".data ++ hexChars (env.H sol.output))) := by
  have heq : verifySolution env cache job sol =
      (let pe := verifyHashMatch env.H sol.output expected
       let result0 := VerificationResult.new sol.id job.id env.verifierPk pe.1 pe.2
         env.elapsedMs env.now
       let result := { result0 with signature := env.sign result0.signingBytes }
       Except.ok (result, (sol.id, result) :: cache)) := by
    unfold verifySolution
    rw [if_neg (by simp [hid]), hcache, hspec]
  refine ⟨_, _, heq, ?_, ?_, ?_⟩
  · by_cases hh : env.H sol.output = expected <;>
      simp [verifyHashMatch, hh, VerificationResult.new]
  · intro hh
    simp [verifyHashMatch, hh, VerificationResult.new]
  · intro hh
    simp [verifyHashMatch, hh, VerificationResult.new]

/-- The C2 witness environment: the hash function sending everything to 1, a
zero signer, Python runtime unavailable, trivial sandbox runtimes. -/
def wEnv : PovEnv :=
  { H := fun _ => 1
    sign := fun _ => 0
    verifierPk := 7
    pyAvailable := false
    pyExec := fun _ _ _ => .ok true
    jsExec := fun _ _ _ => .ok true
    now := 0
    elapsedMs := 5
    cacheTtlMs := 60000 }

/-- The C2 witness job: a `HashMatch` job expecting digest 0. -/
def wJob : JobPacket :=
  { id := 3
    jobType := .Deterministic
    status := .Pending
    requester := 0
    requesterAddress := 0
    input := []
    description := []
    bounty := 0
    burnFee := 0
    verification := .hashMatch 0
    createdAt := 0
    expiresAt := 1
    signature := 0 }

/-- The C2 witness solution for `wJob`: its output hashes (under `wEnv.H`) to
1 ≠ 0, so verification fails with the hex-mismatch error. -/
def wSol : SolutionCandidate :=
  { id := 9
    jobId := 3
    solver := 0
    solverAddress := 0
    output := [42]
    outputHash := 0
    submittedAt := 0
    signature := 0
    status := .Pending
    isHoneyPot := false }

/-- Witness for C2 at a concrete mismatching input: verification succeeds as an
operation, reports `passed = false`, and the error carries both digests. -/
theorem c2_hash_match_witness :
    wJob.verification = .hashMatch 0 ∧ wSol.jobId = wJob.id ∧
    getCachedResult wEnv [] wSol.id = none ∧
    ∃ res newCache, verifySolution wEnv [] wJob wSol = .ok (res, newCache) ∧
      (res.passed = true ↔ wEnv.H wSol.output = 0) ∧
      (wEnv.H wSol.output = 0 → res.error = none) ∧
      (wEnv.H wSol.output ≠ 0 →
        res.error = some ("Hash mismatch: expected ".data ++ hexChars 0 ++
          ", got ".data ++ hexChars (wEnv.H wSol.output))) :=
  ⟨rfl, rfl, rfl, c2_hash_match wEnv [] wJob wSol 0 rfl rfl rfl⟩

/-! ## C7 — the 95/4/1 fee split (`distribute` spec-modelled, see its doc) -/

/-- Claim C7 counterexample: at a bounty of 3 base units the three
floor-divided shares are 2, 0 and 0, summing to 2 ≠ 3 — the distribution does
not always sum exactly to the bounty. -/
theorem c7_counterexample :
    (processJobCompletion TokenEconomicsConfig.default 3).solverAmount +
      (processJobCompletion TokenEconomicsConfig.default 3).verifierAmount +
      (processJobCompletion TokenEconomicsConfig.default 3).burnAmount ≠ 3 := by
  decide

/-- Claim C7 (corrected, spec-modelled `distribute`): `process_job_completion`
distributes `solver = B·95/100`, `verifier = B·4/100`, `burn = B·1/100` (floor
division on base units); the three amounts sum to at most `B`, with equality
exactly guaranteed when `100` divides `B` in base units — in particular for
every whole-HCLAW bounty. -/
theorem c7_fee_split (bounty : Nat) (hb : bounty ≤ MAX_SUPPLY) :
    (processJobCompletion TokenEconomicsConfig.default bounty).solverAmount =
        bounty * 95 / 100 ∧
      (processJobCompletion TokenEconomicsConfig.default bounty).verifierAmount =
        bounty * 4 / 100 ∧
      (processJobCompletion TokenEconomicsConfig.default bounty).burnAmount =
        bounty * 1 / 100 ∧
      (processJobCompletion TokenEconomicsConfig.default bounty).solverAmount +
          (processJobCompletion TokenEconomicsConfig.default bounty).verifierAmount +
          (processJobCompletion TokenEconomicsConfig.default bounty).burnAmount ≤ bounty ∧
      (100 ∣ bounty →
        (processJobCompletion TokenEconomicsConfig.default bounty).solverAmount +
            (processJobCompletion TokenEconomicsConfig.default bounty).verifierAmount +
            (processJobCompletion TokenEconomicsConfig.default bounty).burnAmount = bounty) := by
  have hm : ∀ p : Nat, p ≤ 100 → bounty * p % U128MOD = bounty * p := by
    intro p hp
    apply Nat.mod_eq_of_lt
    calc bounty * p ≤ MAX_SUPPLY * 100 := Nat.mul_le_mul hb hp
    _ < U128MOD := by decide
  simp only [processJobCompletion, FeeDistributor.distribute, HclawAmount.percentage,
    TokenEconomicsConfig.default]
  rw [hm 95 (by omega), hm 4 (by omega), hm 1 (by omega)]
  refine ⟨rfl, rfl, rfl, by omega, ?_⟩
  intro hdvd
  obtain ⟨k, rfl⟩ := hdvd
  omega

/-- Witness for C7's amended theorem: a 100-HCLAW bounty splits into exactly
95, 4 and 1 HCLAW, which sum back to the bounty. -/
theorem c7_fee_split_witness :
    100 * ONE_HCLAW ≤ MAX_SUPPLY ∧ 100 ∣ 100 * ONE_HCLAW ∧
    (processJobCompletion TokenEconomicsConfig.default (100 * ONE_HCLAW)).solverAmount +
        (processJobCompletion TokenEconomicsConfig.default (100 * ONE_HCLAW)).verifierAmount +
        (processJobCompletion TokenEconomicsConfig.default (100 * ONE_HCLAW)).burnAmount =
      100 * ONE_HCLAW :=
  ⟨by decide, ⟨ONE_HCLAW, by decide⟩,
   (c7_fee_split (100 * ONE_HCLAW) (by decide)).2.2.2.2 ⟨ONE_HCLAW, by decide⟩⟩

/-! ## C4 — the commitment preimage -/

/-- The all-zero 32-byte nonce used as the concrete C4 input. -/
def zeroNonce : List Nat := List.replicate 32 0

/-- Claim C4 counterexample: at vote `Accept`, quality score 80 and the
all-zero nonce, the commitment stored by `commit` differs from
"SHA3-256(vote_byte ‖ quality_score ‖ nonce)" as the claim states it:
`commit` hashes `vote_byte ‖ quality_score ‖ nonce` *with the nonce appended
again* by `Commitment::create(value, nonce) = SHA3-256(value ‖ nonce)`. -/
theorem c4_counterexample :
    (VerificationVote.commit 0 0 VoteResult.Accept 80 zeroNonce 0).commitment ≠
      specVoteCommitment VoteResult.Accept 80 zeroNonce := by
  decide

/-- Claim C4 (corrected): the commitment stored by
`commit(solution_id, voter, vote, quality_score)` with nonce `n` equals
SHA3-256 of `vote_byte ‖ quality_score ‖ n ‖ n` — the 32-byte nonce appears
twice, once inside the committed value and once appended by
`Commitment::create`; the reveal path recomputes the same double-nonce digest,
so the commitment verifies against its own vote data. -/
theorem c4_commitment_preimage (solutionId voter : Nat) (vote : VoteResult)
    (q : Nat) (nonce : List Nat) (now : Int) :
    (VerificationVote.commit solutionId voter vote q nonce now).commitment =
      sha3_256 (vote.asByte :: q :: (nonce ++ nonce)) ∧
    Commitment.check (VerificationVote.commit solutionId voter vote q nonce now).commitment
      (vote.asByte :: q :: nonce) nonce = true := by
  constructor
  · show Commitment.create (vote.asByte :: q :: nonce) nonce = _
    simp [Commitment.create]
  · simp [Commitment.check, VerificationVote.commit]

/-! ## C5 — majority, average quality, and round acceptance -/

/-- The votes in `votes` cast for `w` (spec-side counting). -/
def votesFor (votes : List VerificationVote) (w : VoteResult) : List VerificationVote :=
  votes.filter (fun v => v.vote == some w)

/-- Number of votes cast for `w`. -/
def countVote (votes : List VerificationVote) (w : VoteResult) : Nat :=
  (votesFor votes w).length

/-- Sum of quality scores over accept-voters (spec-side). -/
def acceptQualitySum (votes : List VerificationVote) : Nat :=
  ((votesFor votes VoteResult.Accept).map (fun v => v.qualityScore.getD 0)).sum

/-- The accept votes that actually carry a quality score — exactly the votes
the source's `quality_sum`/`quality_count` accumulate over. -/
def qualityVotes (votes : List VerificationVote) : List VerificationVote :=
  votes.filter (fun v => v.vote == some VoteResult.Accept && v.qualityScore.isSome)

/-- What `finalize_round` returns on a Complete active round (shared between
the C5 and C6 developments). -/
theorem finalizeRound_complete (c : SchellingConsensus) (sid : Nat) (now : Int)
    (round : VotingRound) (hlk : lookup? sid c.activeRounds = some round)
    (hph : round.phase = VotingPhase.Complete) :
    c.finalizeRound sid now =
      (let results := round.tallyVotes
       let accepted := results.majority == some VoteResult.Accept
         && decide ((c.config.qualityThreshold : ℚ) ≤ results.avgQualityScore)
       let deviants := (round.votes.filter
         (fun p => deviantVote results.majority p.2)).map Prod.fst
       let outcome : RoundOutcome :=
         { solutionId := sid, accepted := accepted, results := results,
           deviants := deviants, finalizedAt := now }
       Except.ok (outcome,
         { config := c.config
           activeRounds := removeKey sid c.activeRounds
           completedRounds := (sid, ⟨round, outcome⟩) :: c.completedRounds })) := by
  unfold SchellingConsensus.finalizeRound
  simp only [hlk]
  simp [hph]

/-- Closed form of the `from_votes` accumulation loop. -/
theorem foldl_tallyStep (votes : List VerificationVote) (a : TallyAcc) :
    votes.foldl tallyStep a =
      { total := a.total + (votes.filter (fun v => v.vote.isSome)).length
        accept := a.accept + countVote votes .Accept
        reject := a.reject + countVote votes .Reject
        abstain := a.abstain + countVote votes .Abstain
        qSum := a.qSum + ((qualityVotes votes).map (fun v => v.qualityScore.getD 0)).sum
        qCnt := a.qCnt + (qualityVotes votes).length } := by
  induction votes generalizing a with
  | nil => simp [countVote, votesFor, qualityVotes]
  | cons v rest ih =>
    rw [List.foldl_cons, ih]
    rcases hv : v.vote with _ | w
    · simp [tallyStep, hv, countVote, votesFor, qualityVotes, List.filter_cons]
    · cases w
      · rcases hq : v.qualityScore with _ | q
        · simp only [tallyStep, hv, hq, countVote, votesFor, qualityVotes,
            List.filter_cons, Option.isSome_some, Option.isSome_none, TallyAcc.mk.injEq]
          simp
          omega
        · simp only [tallyStep, hv, hq, countVote, votesFor, qualityVotes,
            List.filter_cons, Option.isSome_some, Option.isSome_none, TallyAcc.mk.injEq]
          simp [hq]
          omega
      · simp only [tallyStep, hv, countVote, votesFor, qualityVotes,
          List.filter_cons, TallyAcc.mk.injEq]
        simp
        omega
      · simp only [tallyStep, hv, countVote, votesFor, qualityVotes,
          List.filter_cons, TallyAcc.mk.injEq]
        simp
        omega

/-- Claim C5 (confirmed): with abstentions excluded, the majority is `Accept`
when `accept > reject`, `Reject` when strictly smaller, none on a tie (the
source's extra `participating > 0` guard is redundant);  under the hypothesis
that every accept-voter carries a quality score (true of every revealed vote),
`avg_quality_score` is the average of quality scores over accept-voters only;
and `finalize_round` on a Complete round succeeds and marks it accepted iff the
majority is `Accept` and the average quality reaches the configured
`quality_threshold`. -/
theorem c5_tally_and_finalize (votes : List VerificationVote) :
    ((VotingResults.fromVotes votes).acceptVotes = countVote votes .Accept ∧
     (VotingResults.fromVotes votes).rejectVotes = countVote votes .Reject ∧
     (VotingResults.fromVotes votes).abstainVotes = countVote votes .Abstain ∧
     (VotingResults.fromVotes votes).majority =
       (if countVote votes .Reject < countVote votes .Accept then some VoteResult.Accept
        else if countVote votes .Accept < countVote votes .Reject then some VoteResult.Reject
        else none)) ∧
    ((∀ v ∈ votes, v.vote = some VoteResult.Accept → v.qualityScore.isSome = true) →
      (VotingResults.fromVotes votes).avgQualityScore =
        if countVote votes .Accept = 0 then 0
        else (acceptQualitySum votes : ℚ) / (countVote votes .Accept : ℚ)) ∧
    (∀ (c : SchellingConsensus) (sid : Nat) (round : VotingRound) (now : Int),
      lookup? sid c.activeRounds = some round → round.phase = .Complete →
      ∃ out c', c.finalizeRound sid now = .ok (out, c') ∧
        out.results = round.tallyVotes ∧
        (out.accepted = true ↔ (out.results.majority = some VoteResult.Accept ∧
          (c.config.qualityThreshold : ℚ) ≤ out.results.avgQualityScore))) := by
  refine ⟨?_, ?_, ?_⟩
  · unfold VotingResults.fromVotes
    rw [foldl_tallyStep]
    refine ⟨by simp, by simp, by simp, ?_⟩
    simp only [Nat.zero_add]
    split_ifs <;> first | rfl | (exfalso; omega)
  · intro hall
    have hqv : qualityVotes votes = votesFor votes VoteResult.Accept := by
      unfold qualityVotes votesFor
      apply List.filter_congr
      intro v hv
      by_cases ha : v.vote = some VoteResult.Accept
      · simp [ha, hall v hv ha]
      · simp [ha]
    unfold VotingResults.fromVotes
    rw [foldl_tallyStep]
    simp only [Nat.zero_add, hqv, countVote, acceptQualitySum]
    split_ifs <;> first | rfl | (exfalso; omega)
  · intro c sid round now hlk hph
    refine ⟨_, _, finalizeRound_complete c sid now round hlk hph, rfl, ?_⟩
    simp [Bool.and_eq_true, beq_iff_eq, decide_eq_true_eq]

/-- A concrete revealed Accept vote (voter 1, quality 80) of the C5/C6 round. -/
def fVoteA : VerificationVote :=
  { solutionId := 0, voter := 1, commitment := 0, vote := some .Accept,
    nonce := none, qualityScore := some 80, committedAt := 0,
    revealedAt := some 1, signature := 0 }

/-- A second revealed Accept vote (voter 2, quality 80). -/
def fVoteB : VerificationVote :=
  { solutionId := 0, voter := 2, commitment := 0, vote := some .Accept,
    nonce := none, qualityScore := some 80, committedAt := 0,
    revealedAt := some 1, signature := 0 }

/-- The concrete revealed Reject vote (voter 3, quality 30) of the C5/C6 round. -/
def fVoteR : VerificationVote :=
  { solutionId := 0, voter := 3, commitment := 0, vote := some .Reject,
    nonce := none, qualityScore := some 30, committedAt := 0,
    revealedAt := some 1, signature := 0 }

/-- A Complete round with exactly the three revealed votes above. -/
def fRound : VotingRound :=
  { solutionId := 0, phase := .Complete, commitStart := 0, revealStart := 0,
    endTime := 0, votes := [(1, fVoteA), (2, fVoteB), (3, fVoteR)] }

/-- A Schelling engine whose configured quorum (`min_voters = 5`) exceeds the
3 reveals of its only active round `fRound` (`quality_threshold` stays at the
default 70). -/
def fCons : SchellingConsensus :=
  { config := { SchellingConfig.default with minVoters := 5 },
    activeRounds := [(0, fRound)], completedRounds := [] }

/-- Witness for C5 at the concrete two-vote round: one accept (quality 80) and
one reject gives majority `Accept`, average 80, and the round finalizes. -/
theorem c5_tally_and_finalize_witness :
    (∀ v ∈ [fVoteA, fVoteB, fVoteR],
      v.vote = some VoteResult.Accept → v.qualityScore.isSome = true) ∧
    (VotingResults.fromVotes [fVoteA, fVoteB, fVoteR]).avgQualityScore =
      (if countVote [fVoteA, fVoteB, fVoteR] .Accept = 0 then 0
       else (acceptQualitySum [fVoteA, fVoteB, fVoteR] : ℚ) /
         (countVote [fVoteA, fVoteB, fVoteR] .Accept : ℚ)) ∧
    lookup? 0 fCons.activeRounds = some fRound ∧ fRound.phase = .Complete ∧
    ∃ out c', fCons.finalizeRound 0 0 = .ok (out, c') ∧
      out.results = fRound.tallyVotes ∧
      (out.accepted = true ↔ (out.results.majority = some VoteResult.Accept ∧
        (fCons.config.qualityThreshold : ℚ) ≤ out.results.avgQualityScore)) :=
  ⟨by decide, (c5_tally_and_finalize [fVoteA, fVoteB, fVoteR]).2.1 (by decide), rfl, rfl,
   (c5_tally_and_finalize [fVoteA, fVoteB, fVoteR]).2.2 fCons 0 fRound 0 rfl rfl⟩

/-! ## C6 — quorum is checked nowhere in `finalize_round` -/

/-- Claim C6 counterexample: the default config requires `min_voters = 3`, the
round `fRound` reaches Complete with only 2 reveals (no quorum), yet
`finalize_round` marks it **accepted** (majority Accept, average 80 ≥ 70) and
reports a **non-empty** deviant list (the reject voter) — not the "no
acceptance and no slashing" the claim states. -/
theorem c6_counterexample :
    fRound.hasQuorum fCons.config.minVoters = false ∧
    ∃ out c', fCons.finalizeRound 0 0 = .ok (out, c') ∧
      out.accepted = true ∧ out.deviants = [3] := by
  refine ⟨by decide, ?_⟩
  rw [finalizeRound_complete fCons 0 0 fRound rfl rfl]
  refine ⟨_, _, rfl, ?_, ?_⟩
  · have hmaj : (fRound.tallyVotes).majority = some VoteResult.Accept := by decide
    have havg : (fRound.tallyVotes).avgQualityScore = ((160 : Nat) : ℚ) / ((2 : Nat) : ℚ) := rfl
    have hle : ((fCons.config.qualityThreshold : Nat) : ℚ) ≤
        ((160 : Nat) : ℚ) / ((2 : Nat) : ℚ) := by
      norm_num [fCons, SchellingConfig.default]
    show ((fRound.tallyVotes).majority == some VoteResult.Accept &&
      decide ((fCons.config.qualityThreshold : ℚ) ≤ (fRound.tallyVotes).avgQualityScore)) = true
    rw [hmaj, havg]
    simp only [beq_self_eq_true, Bool.true_and, decide_eq_true_eq]
    exact hle
  · decide

/-- Claim C6 (corrected): `has_quorum(min_voters) ⇔ reveal_count ≥ min_voters`
holds, but `finalize_round` never consults it: its outcome is unchanged under
any modification of `min_voters`, and a Complete round without quorum is
finalized all the same, accepted iff majority = Accept and the average quality
meets the threshold (and its deviants slashed accordingly). -/
theorem c6_quorum_not_enforced (r : VotingRound) (m : Nat) (c : SchellingConsensus)
    (sid : Nat) (now : Int) :
    (r.hasQuorum m = true ↔ m ≤ r.revealCount) ∧
    ((SchellingConsensus.finalizeRound
        { c with config := { c.config with minVoters := m } } sid now).map Prod.fst =
      (c.finalizeRound sid now).map Prod.fst) ∧
    (∀ round, lookup? sid c.activeRounds = some round → round.phase = .Complete →
      round.hasQuorum c.config.minVoters = false →
      ∃ out c', c.finalizeRound sid now = .ok (out, c') ∧
        (out.accepted = true ↔ (out.results.majority = some VoteResult.Accept ∧
          (c.config.qualityThreshold : ℚ) ≤ out.results.avgQualityScore))) := by
  refine ⟨?_, ?_, ?_⟩
  · simp [VotingRound.hasQuorum]
  · unfold SchellingConsensus.finalizeRound
    cases hlk : lookup? sid c.activeRounds with
    | none => rfl
    | some round =>
      by_cases hph : round.phase = VotingPhase.Complete
      · simp [hph, Except.map]
      · simp [hph]
  · intro round hlk hph _hq
    refine ⟨_, _, finalizeRound_complete c sid now round hlk hph, ?_⟩
    simp [Bool.and_eq_true, beq_iff_eq, decide_eq_true_eq]

/-- Witness for C6's amended theorem at the concrete sub-quorum round. -/
theorem c6_quorum_not_enforced_witness :
    (fRound.hasQuorum 2 = true ↔ 2 ≤ fRound.revealCount) ∧
    lookup? 0 fCons.activeRounds = some fRound ∧ fRound.phase = .Complete ∧
    fRound.hasQuorum fCons.config.minVoters = false ∧
    ∃ out c', fCons.finalizeRound 0 0 = .ok (out, c') ∧
      (out.accepted = true ↔ (out.results.majority = some VoteResult.Accept ∧
        (fCons.config.qualityThreshold : ℚ) ≤ out.results.avgQualityScore)) :=
  ⟨(c6_quorum_not_enforced fRound 2 fCons 0 0).1, rfl, rfl, by decide,
   (c6_quorum_not_enforced fRound 2 fCons 0 0).2.2 fRound rfl rfl (by decide)⟩

/-! ## C8 — stake slashing accounting -/

/-- `applySlashes` unfolds one step at a time. -/
theorem applySlashes_cons (s : StakeInfo) (p : SlashingReason × Int)
    (rest : List (SlashingReason × Int)) :
    s.applySlashes (p :: rest) = ((s.applySlash p.1 p.2).1).applySlashes rest := rfl

/-- A slash never reactivates a stake. -/
theorem applySlash_inactive (s : StakeInfo) (reason : SlashingReason) (ts : Int)
    (h : s.isActive = false) : (s.applySlash reason ts).1.isActive = false := by
  simp only [StakeInfo.applySlash]
  split
  · rfl
  · exact h

/-- Once inactive, a stake stays inactive under any further slashes. -/
theorem applySlashes_inactive (rs : List (SlashingReason × Int)) (s : StakeInfo)
    (h : s.isActive = false) : (s.applySlashes rs).isActive = false := by
  induction rs generalizing s with
  | nil => exact h
  | cons p rest ih =>
    rw [applySlashes_cons]
    exact ih _ (applySlash_inactive s p.1 p.2 h)

/-- Claim C8 counterexample: a stake of `MAX_SUPPLY` slashed twice at 100%
(`HoneyPotApproval`).  The second slash leaves `total_slashed` at `MAX_SUPPLY`
(`saturating_add` is capped there) instead of adding
`amount · 100 / 100 = MAX_SUPPLY` again — a slash does not always *add* its
amount to `total_slashed`. -/
theorem c8_counterexample :
    ((((StakeInfo.new 0 MAX_SUPPLY 0).applySlash (.honeyPotApproval 0) 1).1).applySlash
        (.honeyPotApproval 0) 2).1.totalSlashed ≠
      (((StakeInfo.new 0 MAX_SUPPLY 0).applySlash (.honeyPotApproval 0) 1).1).totalSlashed +
        HclawAmount.percentage
          (((StakeInfo.new 0 MAX_SUPPLY 0).applySlash (.honeyPotApproval 0) 1).1).amount
          (SlashingReason.honeyPotApproval 0).slashPercentage := by
  decide

/-- Claim C8 (corrected): each slash computes
`amount · slash_percentage / 100` from the original staked amount (which the
slash leaves unchanged), adds it to `total_slashed` *saturating at
`MAX_SUPPLY`* (so a repeated 100% slash of a `MAX_SUPPLY` stake adds nothing),
and appends a slash event carrying that amount; `effective_stake` is the
truncated difference `amount − total_slashed`, hence never negative; and after
any 100%-percentage slash (`HoneyPotApproval` or `DoubleSigning`) anywhere in a
slash sequence the stake is inactive and `can_verify` returns `false`. -/
theorem c8_slash_accounting (s : StakeInfo) (reason : SlashingReason) (ts : Int)
    (rs : List (SlashingReason × Int)) (minStake : Nat) :
    ((s.applySlash reason ts).2 =
        HclawAmount.percentage s.amount reason.slashPercentage ∧
      (s.applySlash reason ts).1.totalSlashed =
        HclawAmount.saturatingAdd s.totalSlashed (s.applySlash reason ts).2 ∧
      (s.applySlash reason ts).1.slashHistory =
        s.slashHistory ++ [⟨reason, (s.applySlash reason ts).2, ts⟩] ∧
      (s.applySlash reason ts).1.amount = s.amount ∧
      ((s.applySlash reason ts).1.effectiveStake : ℤ) =
        max ((s.amount : ℤ) - ((s.applySlash reason ts).1.totalSlashed : ℤ)) 0 ∧
      (reason.slashPercentage = 100 →
        (s.applySlash reason ts).1.isActive = false ∧
        (s.applySlash reason ts).1.canVerify minStake = false)) ∧
    ((∃ r ∈ rs, (r : SlashingReason × Int).1.slashPercentage = 100) →
      (s.applySlashes rs).isActive = false ∧
      (s.applySlashes rs).canVerify minStake = false) := by
  constructor
  · refine ⟨rfl, rfl, rfl, rfl, ?_, ?_⟩
    · simp only [StakeInfo.effectiveStake, HclawAmount.saturatingSub, StakeInfo.applySlash]
      omega
    · intro h100
      constructor
      · simp [StakeInfo.applySlash, h100]
      · simp [StakeInfo.canVerify, StakeInfo.applySlash, h100]
  · intro hex
    suffices hact : (s.applySlashes rs).isActive = false by
      exact ⟨hact, by simp [StakeInfo.canVerify, hact]⟩
    obtain ⟨r, hmem, h100⟩ := hex
    induction rs generalizing s with
    | nil => cases hmem
    | cons p rest ih =>
      rw [applySlashes_cons]
      rcases List.mem_cons.mp hmem with rfl | hmem'
      · exact applySlashes_inactive rest _ (by simp [StakeInfo.applySlash, h100])
      · exact ih _ hmem'

/-- Witness for C8's amended theorem: a 1000-HCLAW stake hit by a single
`HoneyPotApproval` (100%) slash ends inactive and unable to verify. -/
theorem c8_slash_accounting_witness :
    (∃ r ∈ [((SlashingReason.honeyPotApproval 0 : SlashingReason), (0 : Int))],
        (r : SlashingReason × Int).1.slashPercentage = 100) ∧
    ((StakeInfo.new 1 (1000 * ONE_HCLAW) 0).applySlashes
        [(SlashingReason.honeyPotApproval 0, 0)]).isActive = false ∧
    ((StakeInfo.new 1 (1000 * ONE_HCLAW) 0).applySlashes
        [(SlashingReason.honeyPotApproval 0, 0)]).canVerify (1000 * ONE_HCLAW) = false :=
  ⟨⟨_, List.mem_singleton_self _, rfl⟩,
   ((c8_slash_accounting (StakeInfo.new 1 (1000 * ONE_HCLAW) 0) (.honeyPotApproval 0) 0
        [(.honeyPotApproval 0, 0)] (1000 * ONE_HCLAW)).2
      ⟨_, List.mem_singleton_self _, rfl⟩).1,
   ((c8_slash_accounting (StakeInfo.new 1 (1000 * ONE_HCLAW) 0) (.honeyPotApproval 0) 0
        [(.honeyPotApproval 0, 0)] (1000 * ONE_HCLAW)).2
      ⟨_, List.mem_singleton_self _, rfl⟩).2⟩

/-! ## C10 — the honey-pot detector's offender set -/

/-- Any decomposition of `l ++ [e]` around a middle element either points at
the final `e` or lives entirely inside `l`. -/
theorem concat_decomp {α : Type} (l l1 l2 : List α) (e x : α)
    (h : l ++ [e] = l1 ++ x :: l2) :
    (l1 = l ∧ x = e ∧ l2 = []) ∨ ∃ l2', l2 = l2' ++ [e] ∧ l = l1 ++ x :: l2' := by
  rcases List.eq_nil_or_concat l2 with rfl | ⟨l2', a, hl2⟩
  · left
    obtain ⟨h1, h2⟩ := List.append_inj' h (by simp)
    refine ⟨h1.symm, ?_, rfl⟩
    injection h2 with h2
    exact h2.symm
  · right
    rw [List.concat_eq_append] at hl2
    subst hl2
    rw [show l1 ++ x :: (l2' ++ [a]) = (l1 ++ x :: l2') ++ [a] by simp] at h
    obtain ⟨h1, h2⟩ := List.append_inj' h (by simp)
    injection h2 with h2
    exact ⟨l2', by rw [h2], h1⟩

/-- Membership through `setInsert`. -/
theorem mem_setInsert (x y : Nat) (l : List Nat) :
    x ∈ setInsert y l ↔ x = y ∨ x ∈ l := by
  unfold setInsert
  split
  · constructor
    · exact fun hx => Or.inr hx
    · rintro (rfl | hx)
      · assumption
      · exact hx
  · simp [List.mem_cons]

/-- Running one more detector call. -/
theorem run_concat (l : List HPEvent) (e : HPEvent) :
    DetectorState.run (l ++ [e]) = (DetectorState.run l).step e := by
  simp [DetectorState.run, List.foldl_append]

/-- The claim's characterisation of the offender set: some `record_offender`
call for `m` named an id that was registered at that moment, and no later
`clear_offender(m)` occurred. -/
def offenderWitness (m : Nat) (evts : List HPEvent) : Prop :=
  ∃ l1 hp l2, evts = l1 ++ HPEvent.recordOffender m hp :: l2 ∧
    hp ∈ (DetectorState.run l1).knownHoneyPots ∧ HPEvent.clearOffender m ∉ l2

/-- Unfolding `offenderWitness` across a final event. -/
theorem offenderWitness_concat (m : Nat) (l : List HPEvent) (e : HPEvent) :
    offenderWitness m (l ++ [e]) ↔
      ((∃ hp, e = HPEvent.recordOffender m hp ∧
          hp ∈ (DetectorState.run l).knownHoneyPots) ∨
        (offenderWitness m l ∧ e ≠ HPEvent.clearOffender m)) := by
  constructor
  · rintro ⟨l1, hp, l2, hdec, hreg, hcl⟩
    rcases concat_decomp l l1 l2 e _ hdec with ⟨rfl, hx, rfl⟩ | ⟨l2', rfl, rfl⟩
    · exact Or.inl ⟨hp, hx.symm, hreg⟩
    · refine Or.inr ⟨⟨l1, hp, l2', rfl, hreg, fun hmem => hcl (by simp [hmem])⟩, ?_⟩
      intro he
      exact hcl (by simp [he])
  · rintro (⟨hp, rfl, hreg⟩ | ⟨⟨l1, hp, l2, rfl, hreg, hcl⟩, hne⟩)
    · exact ⟨l, hp, [], rfl, hreg, by simp⟩
    · refine ⟨l1, hp, l2 ++ [e], by simp, hreg, ?_⟩
      simp only [List.mem_append, List.mem_singleton]
      rintro (hmem | rfl)
      · exact hcl hmem
      · exact hne rfl

/-- `is_offender` after any call sequence, characterised by `offenderWitness`. -/
theorem isOffender_run_iff (m : Nat) (evts : List HPEvent) :
    (DetectorState.run evts).isOffender m = true ↔ offenderWitness m evts := by
  induction evts using List.reverseRecOn with
  | nil =>
    constructor
    · intro h
      simp [DetectorState.run, DetectorState.new, DetectorState.isOffender] at h
    · rintro ⟨l1, hp, l2, habs, -, -⟩
      cases l1 <;> simp_all
  | append_singleton l e ih =>
    rw [run_concat, offenderWitness_concat]
    cases e with
    | register idr =>
      show (DetectorState.run l).isOffender m = true ↔ _
      rw [ih]
      constructor
      · intro h
        exact Or.inr ⟨h, by simp⟩
      · rintro (⟨hp, habs, -⟩ | ⟨hw, -⟩)
        · cases habs
        · exact hw
    | recordOffender m' idr =>
      simp only [DetectorState.step]
      by_cases hpot : (DetectorState.run l).isHoneyPot idr = true
      · rw [if_pos hpot]
        have hmem : idr ∈ (DetectorState.run l).knownHoneyPots := by
          simpa [DetectorState.isHoneyPot] using hpot
        constructor
        · intro h
          have : m ∈ setInsert m' (DetectorState.run l).offenders := by
            simpa [DetectorState.isOffender] using h
          rcases (mem_setInsert m m' _).mp this with rfl | hold
          · exact Or.inl ⟨idr, rfl, hmem⟩
          · exact Or.inr ⟨ih.mp (by simpa [DetectorState.isOffender] using hold), by simp⟩
        · rintro (⟨hp, hinj, hreg⟩ | ⟨hw, -⟩)
          · injection hinj with h1 h2
            subst h1
            simp [DetectorState.isOffender, mem_setInsert]
          · have := ih.mpr hw
            have hold : m ∈ (DetectorState.run l).offenders := by
              simpa [DetectorState.isOffender] using this
            simp [DetectorState.isOffender, mem_setInsert, hold]
      · rw [if_neg hpot]
        rw [ih]
        constructor
        · intro h
          exact Or.inr ⟨h, by simp⟩
        · rintro (⟨hp, hinj, hreg⟩ | ⟨hw, -⟩)
          · injection hinj with h1 h2
            subst h2
            exact absurd (by simpa [DetectorState.isHoneyPot] using hreg) hpot
          · exact hw
    | clearOffender m' =>
      simp only [DetectorState.step]
      by_cases hm : m' = m
      · subst hm
        constructor
        · intro h
          simp [DetectorState.isOffender, List.mem_filter] at h
        · rintro (⟨hp, habs, -⟩ | ⟨-, hne⟩)
          · cases habs
          · exact absurd rfl hne
      · constructor
        · intro h
          have : m ∈ (DetectorState.run l).offenders.filter (fun x => x != m') := by
            simpa [DetectorState.isOffender] using h
          rw [List.mem_filter] at this
          refine Or.inr ⟨ih.mp (by simpa [DetectorState.isOffender] using this.1), ?_⟩
          intro habs
          injection habs with habs
          exact hm habs
        · rintro (⟨hp, habs, -⟩ | ⟨hw, -⟩)
          · cases habs
          · have hold : m ∈ (DetectorState.run l).offenders := by
              simpa [DetectorState.isOffender] using ih.mpr hw
            have : m ∈ (DetectorState.run l).offenders.filter (fun x => x != m') := by
              rw [List.mem_filter]
              exact ⟨hold, by simp [Ne.symm hm]⟩
            simpa [DetectorState.isOffender] using this

/-- Claim C10 (confirmed): a `record_offender(m, id)` call with an id that was
never registered leaves the detector state unchanged, and after any sequence
of `register` / `record_offender` / `clear_offender` calls from a fresh
detector, `is_offender(m)` holds exactly when some `record_offender(m, id)`
with a then-registered honey-pot id occurred and was not followed by a
`clear_offender(m)`. -/
theorem c10_detector_offenders (evts : List HPEvent) (m : Nat) (s : DetectorState)
    (id : Nat) :
    (id ∉ s.knownHoneyPots → s.step (.recordOffender m id) = s) ∧
    ((DetectorState.run evts).isOffender m = true ↔
      ∃ l1 hp l2, evts = l1 ++ HPEvent.recordOffender m hp :: l2 ∧
        hp ∈ (DetectorState.run l1).knownHoneyPots ∧
        HPEvent.clearOffender m ∉ l2) := by
  constructor
  · intro hid
    have hfalse : s.isHoneyPot id = false := by
      simp [DetectorState.isHoneyPot, hid]
    simp [DetectorState.step, hfalse]
  · exact isOffender_run_iff m evts

/-- Witness for C10: registering honey pot 7 and then recording miner 3 for it
flags miner 3; recording miner 5 for the unregistered id 9 changes nothing. -/
theorem c10_detector_offenders_witness :
    DetectorState.new.step (.recordOffender 5 9) = DetectorState.new ∧
    (DetectorState.run [.register 7, .recordOffender 3 7]).isOffender 3 = true :=
  ⟨(c10_detector_offenders [] 5 DetectorState.new 9).1 (by decide),
   (c10_detector_offenders [.register 7, .recordOffender 3 7] 3 DetectorState.new 9).2.mpr
     ⟨[.register 7], 7, [], rfl, by decide, by simp⟩⟩

end Claims

end HardClaw
